import Mathlib

/-!
# Verification of the LC-3 virtual machine (thehxdev/lc3-vm, src/main.c)

A shallow embedding of `src/main.c`.  Machine words are `Nat` with explicit
`% 65536` wherever the C code's `uint16_t` arithmetic truncates.  The global
arrays `uint16_t memory[65536]` and `uint16_t reg[R_COUNT]` become the fields
of a `Machine` record, with the terminal input stream and the produced output
stream made explicit so that every side effect of the C program is visible in
the state.  Fallible / aborting control flow (`abort()`, blocking `getchar()`,
an out-of-bounds string scan in PUTS/PUTSP) is reflected in an `Outcome` type.
-/

namespace LC3

/-- `MEMORY_MAX` from `main.c`: `1 << 16`. -/
def MEMORY_MAX : Nat := 65536

/-- Register indices, mirroring the `enum` in `main.c`:
`R_R0 = 0 … R_R7 = 7, R_PC = 8, R_COND = 9`. -/
def R_R0 : Nat := 0
def R_R7 : Nat := 7
def R_PC : Nat := 8
def R_COND : Nat := 9

/-- Condition flags: `FL_POS = 1<<0`, `FL_ZRO = 1<<1`, `FL_NEG = 1<<2`. -/
def FL_POS : Nat := 1
def FL_ZRO : Nat := 2
def FL_NEG : Nat := 4

/-- Memory-mapped keyboard registers: `MR_KBSR = 0xfe00`, `MR_KBDR = 0xfe02`. -/
def MR_KBSR : Nat := 0xfe00
def MR_KBDR : Nat := 0xfe02

/-- Trap vectors from the `enum` in `main.c`. -/
def TRAP_GETC : Nat := 0x20
def TRAP_OUT : Nat := 0x21
def TRAP_PUTS : Nat := 0x22
def TRAP_IN : Nat := 0x23
def TRAP_PUTSP : Nat := 0x24
def TRAP_HALT : Nat := 0x25

/-- The whole mutable state of the C program:
`mem` is `uint16_t memory[MEMORY_MAX]` (a total function; only indices
`< 65536` correspond to array cells), `reg` is `uint16_t reg[R_COUNT]`
(indices `0..9`), `inp` is the stream of bytes pending on stdin (the terminal
collaborator), and `out` is the stream of bytes written to stdout so far. -/
structure Machine where
  mem : Nat → Nat
  reg : Nat → Nat
  inp : List Nat
  out : List Nat

/-- Pointwise update of a memory / register array. -/
def upd (f : Nat → Nat) (i v : Nat) : Nat → Nat :=
  fun j => if j = i then v else f j

/-- Set one memory cell. -/
def setMem (s : Machine) (a v : Nat) : Machine :=
  { s with mem := upd s.mem a v }

/-- Set one register. -/
def setReg (s : Machine) (r v : Nat) : Machine :=
  { s with reg := upd s.reg r v }

/-- Replace the pending-input stream (after `getchar()` consumed a byte). -/
def setInp (s : Machine) (inp : List Nat) : Machine :=
  { s with inp := inp }

/-- Append bytes to the output stream (`fputc`/`printf`/`fputs`). -/
def emit (s : Machine) (bs : List Nat) : Machine :=
  { s with out := s.out ++ bs }

/-- `mem_read` from `main.c`:

```
static uint16_t mem_read(uint16_t addr) {
    if (addr == MR_KBSR) {
        if (check_key()) {
            memory[MR_KBSR] = (1 << 15);
            memory[MR_KBDR] = getchar();
        } else {
            memory[MR_KBSR] = 0;
        }
    }
    return memory[addr];
}
```

`check_key()` is a zero-timeout poll of stdin, modelled as `s.inp ≠ []`;
`getchar()` pops the head of `s.inp`.  Returns the value read together with
the machine after the poll's side effects. -/
def mem_read (s : Machine) (addr : Nat) : Nat × Machine :=
  if addr = MR_KBSR then
    match s.inp with
    | b :: rest =>
        let s' := setMem (setMem s MR_KBSR (1 <<< 15)) MR_KBDR b
        let s' := { s' with inp := rest }
        (s'.mem addr, s')
    | [] =>
        let s' := setMem s MR_KBSR 0
        (s'.mem addr, s')
  else
    (s.mem addr, s)

/-- `mem_write` from `main.c`: `memory[addr] = value;`. -/
def mem_write (s : Machine) (addr value : Nat) : Machine :=
  setMem s addr value

/-- `sign_extend` from `main.c`:

```
static uint16_t sign_extend(uint16_t num, int bit_count) {
    if ((num >> (bit_count-1)) & 0x1) {
        num |= (0xffff << bit_count);
    }
    return num;
}
```

The `|=` into a `uint16_t` truncates modulo 2^16. -/
def sign_extend (num : Nat) (bit_count : Nat) : Nat :=
  if (num >>> (bit_count - 1)) &&& 0x1 = 1 then
    (num ||| (0xffff <<< bit_count)) % 65536
  else
    num

/-- The flag value `update_flags` computes from the content `v` of the
register just written: `FL_ZRO` if zero, `FL_NEG` if bit 15 set, else
`FL_POS`. -/
def flagOf (v : Nat) : Nat :=
  if v = 0 then FL_ZRO
  else if v >>> 15 ≠ 0 then FL_NEG
  else FL_POS

/-- `update_flags(r)` from `main.c`: sets `reg[R_COND]` from `reg[r]`. -/
def update_flags (s : Machine) (r : Nat) : Machine :=
  setReg s R_COND (flagOf (s.reg r))

/-- `swap16` from `main.c`: `(x << 8) | (x >> 8)` truncated to `uint16_t`. -/
def swap16 (x : Nat) : Nat :=
  ((x <<< 8) ||| (x >>> 8)) % 65536

section Loader

/-- The sequence of 16-bit words `fread(p, sizeof(uint16_t), max_read, fp)`
obtains from a byte stream on a little-endian host, after the `swap16` loop:
each pair of bytes `c0, c1` (file order) becomes the big-endian word
`swap16(c0 + 256*c1)`; a trailing odd byte is not a full item and is
dropped. -/
def wordsBE : List Nat → List Nat
  | c0 :: c1 :: rest => swap16 (c0 + 256 * c1) :: wordsBE rest
  | _ => []

/-- `*p++ = w` for each word: store `ws` at consecutive addresses from `o`
(pointer arithmetic in C: no 16-bit wraparound). -/
def storeWords (mem : Nat → Nat) (o : Nat) : List Nat → (Nat → Nat)
  | [] => mem
  | w :: ws => storeWords (upd mem o w) (o + 1) ws

/-- `read_image_file` from `main.c`:

```
static void read_image_file(FILE *fp) {
    uint16_t origin;
    fread(&origin, sizeof(origin), 1, fp);
    origin = swap16(origin);

    uint16_t max_read = MEMORY_MAX - origin;
    uint16_t *p = memory + origin;
    size_t read = fread(p, sizeof(uint16_t), max_read, fp);

    // convert to little endian
    while (read-- > 0) {
        *p = swap16(*p);
        ++p;
    }
}
```

The first two bytes `b0, b1` land little-endian in `origin` and are swapped
to the big-endian value; `max_read` is a `uint16_t`, so `MEMORY_MAX - origin`
is computed modulo 2^16 (for `origin = 0` it is 0, not 65536).  `fread` then
reads at most `max_read` full 16-bit items.  With fewer than two bytes the
first `fread` fails and `origin` stays indeterminate; no word is modelled as
stored in that case. -/
def read_image_file (mem : Nat → Nat) : List Nat → (Nat → Nat)
  | b0 :: b1 :: rest =>
      let origin := swap16 (b0 + 256 * b1)
      let max_read := (MEMORY_MAX - origin) % 65536
      storeWords mem origin ((wordsBE rest).take max_read)
  | _ => mem

/-- Result of `main`'s argument-handling prologue. -/
inductive LoadResult where
  | usage                       -- `argc < 2`: print usage, `exit(2)`
  | loadFail (path : String)    -- `fopen` failed: print error naming path, `exit(1)`
  | loaded (mem : Nat → Nat)    -- all images read into memory

/-- The image-loading loop of `main`:

```
for (int j = 0; j < argc; j++) {
    if (!read_image(argv[j])) {
        printf("failed to load image: %s\n", argv[j]);
        exit(1);
    }
}
```

`fs` models the file system: the byte stream behind each openable path.
Note the loop starts at `j = 0`, so `argv[0]` (the program name itself) is
also passed to `read_image`. -/
def loadLoop (fs : String → Option (List Nat)) (mem : Nat → Nat) :
    List String → LoadResult
  | [] => .loaded mem
  | p :: rest =>
      match fs p with
      | none => .loadFail p
      | some bytes => loadLoop fs (read_image_file mem bytes) rest

/-- `main`'s prologue: usage check (`argc < 2` prints usage and exits with
status 2), then the loading loop over the whole `argv` array starting at
index 0, on the zero-initialised global `memory`. -/
def mainLoad (fs : String → Option (List Nat)) (argv : List String) :
    LoadResult :=
  if argv.length < 2 then .usage
  else loadLoop fs (fun _ => 0) argv

end Loader

section Executor

/-- Outcome of one cycle of the fetch-decode-execute loop. -/
inductive Outcome where
  | ok (s : Machine)       -- cycle completed, `while (running)` continues
  | halt (s : Machine)     -- `TRAP_HALT` set `running = 0`
  | fault (s : Machine)    -- `abort()` (OP_RTI, OP_RES, default)
  | oob (s : Machine)      -- PUTS/PUTSP scan ran past the end of `memory[]`
  | blocked (s : Machine)  -- `getchar()` with no pending input blocks forever


/-- `true` exactly on `Outcome.ok`. -/
def Outcome.isOk : Outcome → Bool
  | .ok _ => true
  | _ => false

/-- The machine carried by an outcome. -/
def Outcome.state : Outcome → Machine
  | .ok s => s
  | .halt s => s
  | .fault s => s
  | .oob s => s
  | .blocked s => s

/-- Bytes of the `printf("Enter a character: ")` prompt in TRAP_IN. -/
def promptOut : List Nat := "Enter a character: ".toList.map Char.toNat

/-- Bytes of `fputs("HALT", stdout)` in TRAP_HALT. -/
def haltOut : List Nat := "HALT".toList.map Char.toNat

/-- `reg[R_R0] = (uint16_t)c` where `char c = getchar()` delivered byte `b`:
the `int → char → uint16_t` round trip sign-extends bytes ≥ 128. -/
def charSext (b : Nat) : Nat :=
  if b % 256 < 128 then b % 256 else 0xff00 + b % 256

/-- The `while (*c) { ...; ++c; }` scan of PUTS/PUTSP: collect the cells
from index `i` up to (excluding) the first zero cell.  The fuel bounds how
many array cells exist from `i` on; `none` means the scan would have walked
past the end of the 65,536-cell array (out-of-bounds access in the C). -/
def scanZero (mem : Nat → Nat) : Nat → Nat → Option (List Nat)
  | _, 0 => none
  | i, f + 1 =>
      if mem i = 0 then some []
      else Option.map (fun l => mem i :: l) (scanZero mem (i + 1) f)

/-- Bytes PUTSP emits for the scanned cells: per cell, `(*c) & 0xff` then,
if nonzero, the high byte `(*c) >> 8`. -/
def putspBytes : List Nat → List Nat
  | [] => []
  | c :: cs =>
      c % 256 :: ((if (c >>> 8) % 256 ≠ 0 then [(c >>> 8) % 256] else [])
        ++ putspBytes cs)

/-- The body of `switch (op)` in `main`, applied to the fetched instruction
word and the machine state after the fetch (PC already incremented).
Each arm transcribes the corresponding `case` of `main.c`; opcode numbering
follows the `enum` (`OP_BR = 0 … OP_TRAP = 15`).  `OP_RTI` (8), `OP_RES`
(13) and the `default` arm call `abort()`. -/
def execInstr (instr : Nat) (s : Machine) : Outcome :=
  match instr >>> 12 with
  | 0 => -- OP_BR
      let flags := (instr >>> 9) &&& 0x7
      let pc_offset := sign_extend (instr &&& 0x1ff) 9
      if flags &&& s.reg R_COND ≠ 0 then
        .ok (setReg s R_PC ((s.reg R_PC + pc_offset) % 65536))
      else
        .ok s
  | 1 => -- OP_ADD
      let dr := (instr >>> 9) &&& 0x7
      let sr1 := (instr >>> 6) &&& 0x7
      let s' :=
        if (instr >>> 5) &&& 0x1 = 1 then
          setReg s dr ((s.reg sr1 + sign_extend (instr &&& 0x1f) 5) % 65536)
        else
          setReg s dr ((s.reg sr1 + s.reg (instr &&& 0x7)) % 65536)
      .ok (update_flags s' dr)
  | 2 => -- OP_LD
      let dr := (instr >>> 9) &&& 0x7
      let pc_offset := sign_extend (instr &&& 0x1ff) 9
      let r := mem_read s ((s.reg R_PC + pc_offset) % 65536)
      .ok (update_flags (setReg r.2 dr r.1) dr)
  | 3 => -- OP_ST
      let pc_offset := sign_extend (instr &&& 0x1ff) 9
      let sr := (instr >>> 9) &&& 0x7
      .ok (mem_write s ((s.reg R_PC + pc_offset) % 65536) (s.reg sr))
  | 4 => -- OP_JSR
      let s1 := setReg s R_R7 (s.reg R_PC)
      if (instr >>> 11) &&& 0x1 = 1 then
        .ok (setReg s1 R_PC ((s1.reg R_PC + sign_extend (instr &&& 0x7ff) 11) % 65536))
      else
        .ok (setReg s1 R_PC (s1.reg ((instr >>> 6) &&& 0x7)))
  | 5 => -- OP_AND
      let dr := (instr >>> 9) &&& 0x7
      let sr1 := (instr >>> 6) &&& 0x7
      let s' :=
        if (instr >>> 5) &&& 0x1 = 1 then
          setReg s dr (s.reg sr1 &&& sign_extend (instr &&& 0x1f) 5)
        else
          setReg s dr (s.reg sr1 &&& s.reg (instr &&& 0x7))
      .ok (update_flags s' dr)
  | 6 => -- OP_LDR
      let offset := sign_extend (instr &&& 0x3f) 6
      let baseR := (instr >>> 6) &&& 0x7
      let dr := (instr >>> 9) &&& 0x7
      let r := mem_read s ((s.reg baseR + offset) % 65536)
      .ok (update_flags (setReg r.2 dr r.1) dr)
  | 7 => -- OP_STR
      let offset := sign_extend (instr &&& 0x3f) 6
      let baseR := (instr >>> 6) &&& 0x7
      let sr := (instr >>> 9) &&& 0x7
      .ok (mem_write s ((s.reg baseR + offset) % 65536) (s.reg sr))
  | 9 => -- OP_NOT
      let dr := (instr >>> 9) &&& 0x7
      let sr := (instr >>> 6) &&& 0x7
      .ok (update_flags (setReg s dr ((s.reg sr ^^^ 0xffff) % 65536)) dr)
  | 10 => -- OP_LDI
      let dr := (instr >>> 9) &&& 0x7
      let pc_offset := sign_extend (instr &&& 0x1ff) 9
      let r1 := mem_read s ((s.reg R_PC + pc_offset) % 65536)
      let r2 := mem_read r1.2 r1.1
      .ok (update_flags (setReg r2.2 dr r2.1) dr)
  | 11 => -- OP_STI
      let pc_offset := sign_extend (instr &&& 0x1ff) 9
      let sr := (instr >>> 9) &&& 0x7
      let r := mem_read s ((s.reg R_PC + pc_offset) % 65536)
      .ok (mem_write r.2 r.1 (r.2.reg sr))
  | 12 => -- OP_JMP
      .ok (setReg s R_PC (s.reg ((instr >>> 6) &&& 0x7)))
  | 14 => -- OP_LEA
      let offset := sign_extend (instr &&& 0x1ff) 9
      let dr := (instr >>> 9) &&& 0x7
      .ok (update_flags (setReg s dr ((s.reg R_PC + offset) % 65536)) dr)
  | 15 => -- OP_TRAP
      let s1 := setReg s R_R7 (s.reg R_PC)
      match instr &&& 0xff with
      | 0x20 => -- TRAP_GETC
          match s1.inp with
          | [] => .blocked s1
          | b :: rest => .ok (update_flags (setReg (setInp s1 rest) R_R0 b) R_R0)
      | 0x21 => -- TRAP_OUT
          .ok (emit s1 [s1.reg R_R0 % 256])
      | 0x22 => -- TRAP_PUTS
          match scanZero s1.mem (s1.reg R_R0) (65536 - s1.reg R_R0) with
          | some l => .ok (emit s1 (l.map (fun c => c % 256)))
          | none => .oob s1
      | 0x23 => -- TRAP_IN
          let s2 := emit s1 promptOut
          match s2.inp with
          | [] => .blocked s2
          | b :: rest =>
              .ok (update_flags
                (emit (setReg (setInp s2 rest) R_R0 (charSext b)) [b % 256]) R_R0)
      | 0x24 => -- TRAP_PUTSP
          match scanZero s1.mem (s1.reg R_R0) (65536 - s1.reg R_R0) with
          | some l => .ok (emit s1 (putspBytes l))
          | none => .oob s1
      | 0x25 => -- TRAP_HALT
          .halt (emit s1 haltOut)
      | _ => -- undefined vector: no case in the switch, fall through
          .ok s1
  | _ => -- OP_RTI (8), OP_RES (13), default: abort()
      .fault s

/-- The instruction word delivered by `mem_read(reg[R_PC]++)`. -/
def fetchVal (s : Machine) : Nat := (mem_read s (s.reg R_PC)).1

/-- The machine after `mem_read(reg[R_PC]++)`: the side effects of the
(single) `mem_read` call, followed by the post-increment of the PC. -/
def postFetch (s : Machine) : Machine :=
  setReg (mem_read s (s.reg R_PC)).2 R_PC ((s.reg R_PC + 1) % 65536)

/-- One iteration of `while (running)`: fetch (`fetchVal`/`postFetch`
decompose the single `mem_read(reg[R_PC]++)` call), decode, execute. -/
def step (s : Machine) : Outcome :=
  execInstr (fetchVal s) (postFetch s)

/-- Result of running the loop with a fuel bound. -/
inductive RunResult where
  | running (s : Machine)  -- fuel exhausted, loop still going
  | halted (s : Machine)
  | faulted (s : Machine)
  | oob (s : Machine)
  | blocked (s : Machine)


/-- Run the fetch-decode-execute loop for at most `n` cycles. -/
def run : Nat → Machine → RunResult
  | 0, s => .running s
  | n + 1, s =>
      match step s with
      | .ok s' => run n s'
      | .halt s' => .halted s'
      | .fault s' => .faulted s'
      | .oob s' => .oob s'
      | .blocked s' => .blocked s'

/-- The machine state at the start of the loop in `main`: the loaded memory,
zero-initialised registers except `reg[R_COND] = FL_ZRO` and
`reg[R_PC] = PC_START = 0x3000`, the pending input stream, empty output. -/
def initMachine (mem : Nat → Nat) (inp : List Nat) : Machine :=
  { mem := mem
    reg := upd (upd (fun _ => 0) R_COND FL_ZRO) R_PC 0x3000
    inp := inp
    out := [] }

/-- The register whose value the condition flag reflects after a
flag-updating instruction: `R0` for the GETC/IN traps, the `dr` field
(bits 11:9) for the register-writing opcodes. -/
def destReg (instr : Nat) : Nat :=
  if instr >>> 12 = 15 then R_R0 else (instr >>> 9) &&& 0x7

end Executor

/-! ## Basic lemmas about the state operations -/

theorem upd_self (f : Nat → Nat) (i v : Nat) : upd f i v i = v := by
  simp [upd]

theorem upd_ne (f : Nat → Nat) {i j : Nat} (v : Nat) (h : j ≠ i) :
    upd f i v j = f j := by
  simp [upd, h]

theorem setReg_reg_self (s : Machine) (r v : Nat) : (setReg s r v).reg r = v :=
  upd_self _ _ _

theorem setReg_reg_ne (s : Machine) {r : Nat} (v : Nat) {r' : Nat}
    (h : r' ≠ r) : (setReg s r v).reg r' = s.reg r' :=
  upd_ne _ _ h

theorem update_flags_cond (s : Machine) (r : Nat) :
    (update_flags s r).reg R_COND = flagOf (s.reg r) :=
  setReg_reg_self _ _ _

theorem update_flags_reg (s : Machine) (r : Nat) {r' : Nat}
    (h : r' ≠ R_COND) : (update_flags s r).reg r' = s.reg r' :=
  setReg_reg_ne _ _ h

theorem and7_lt_8 (x : Nat) : x &&& 7 < 8 :=
  lt_of_le_of_lt Nat.and_le_right (by norm_num)

theorem and7_ne_pc (x : Nat) : x &&& 7 ≠ R_PC := by
  have := and7_lt_8 x
  unfold R_PC
  omega

theorem and7_ne_cond (x : Nat) : x &&& 7 ≠ R_COND := by
  have := and7_lt_8 x
  unfold R_COND
  omega

theorem flagOf_cases (v : Nat) :
    flagOf v = FL_POS ∨ flagOf v = FL_ZRO ∨ flagOf v = FL_NEG := by
  unfold flagOf
  split
  · exact Or.inr (Or.inl rfl)
  · split
    · exact Or.inr (Or.inr rfl)
    · exact Or.inl rfl

/-! ## Lemmas about `mem_read` and the fetch -/

theorem mem_read_ne (s : Machine) {addr : Nat} (h : addr ≠ MR_KBSR) :
    mem_read s addr = (s.mem addr, s) := by
  simp [mem_read, h]

theorem mem_read_reg (s : Machine) (a : Nat) :
    (mem_read s a).2.reg = s.reg := by
  by_cases h : a = MR_KBSR
  · subst h
    cases hi : s.inp <;> simp [mem_read, hi, setMem]
  · simp [mem_read, h]

theorem mem_read_out (s : Machine) (a : Nat) :
    (mem_read s a).2.out = s.out := by
  by_cases h : a = MR_KBSR
  · subst h
    cases hi : s.inp <;> simp [mem_read, hi, setMem]
  · simp [mem_read, h]

theorem mem_read_kbsr_val (s : Machine) :
    (mem_read s MR_KBSR).1 = 32768 ∨ (mem_read s MR_KBSR).1 = 0 := by
  cases hi : s.inp with
  | nil =>
      right
      simp [mem_read, hi, setMem, upd]
  | cons b rest =>
      left
      simp [mem_read, hi, setMem, upd, MR_KBSR, MR_KBDR]

theorem fetch_notKbsr (s : Machine) (h : s.reg R_PC ≠ MR_KBSR) :
    fetchVal s = s.mem (s.reg R_PC) ∧
    postFetch s = setReg s R_PC ((s.reg R_PC + 1) % 65536) := by
  unfold fetchVal postFetch
  rw [mem_read_ne s h]
  exact ⟨rfl, rfl⟩

theorem fetchVal_kbsr (s : Machine) (h : s.reg R_PC = MR_KBSR) :
    fetchVal s = 32768 ∨ fetchVal s = 0 := by
  unfold fetchVal
  rw [h]
  exact mem_read_kbsr_val s

/-- If the fetched word's opcode is neither `OP_BR` (0) nor `OP_RTI` (8),
the PC cannot sit on the keyboard-status address (a fetch from `MR_KBSR`
always delivers `0x8000` or `0`). -/
theorem pc_ne_kbsr (s : Machine) (h0 : fetchVal s >>> 12 ≠ 0)
    (h8 : fetchVal s >>> 12 ≠ 8) : s.reg R_PC ≠ MR_KBSR := by
  intro hpc
  rcases fetchVal_kbsr s hpc with h | h
  · rw [h] at h8
    exact h8 (by decide)
  · rw [h] at h0
    exact h0 (by decide)

theorem postFetch_reg_ne (s : Machine) {r : Nat} (h : r ≠ R_PC) :
    (postFetch s).reg r = s.reg r := by
  unfold postFetch
  rw [setReg_reg_ne _ _ h, mem_read_reg]

theorem postFetch_pc (s : Machine) :
    (postFetch s).reg R_PC = (s.reg R_PC + 1) % 65536 :=
  setReg_reg_self _ _ _

theorem postFetch_out (s : Machine) : (postFetch s).out = s.out := by
  unfold postFetch setReg
  exact mem_read_out s _

/-! ## Claim theorems -/

/-- **C3.** `Memory.read(addr)` returns the cell at `addr` (after any poll);
it polls the input collaborator iff `addr = MR_KBSR = 0xFE00`, in which case
with input pending it sets the status cell to `0x8000` (only bit 15 set) and
stores the pending byte into the data cell `0xFE02`, and with no input it
clears the status cell to zero; `Memory.write(addr, value)` stores `value`
at `addr` unconditionally, changes no other cell and has no side effect. -/
theorem c3_memory_contract :
    (∀ (s : Machine) (addr : Nat),
      (mem_read s addr).1 = (mem_read s addr).2.mem addr)
  ∧ (∀ (s : Machine) (addr : Nat), addr ≠ MR_KBSR →
      mem_read s addr = (s.mem addr, s))
  ∧ (∀ (s : Machine) (b : Nat) (rest : List Nat), s.inp = b :: rest →
      (mem_read s MR_KBSR).2.mem MR_KBSR = 32768 ∧
      (mem_read s MR_KBSR).2.mem MR_KBDR = b ∧
      (mem_read s MR_KBSR).1 = 32768 ∧
      (mem_read s MR_KBSR).2.inp = rest ∧
      (∀ a, a ≠ MR_KBSR → a ≠ MR_KBDR → (mem_read s MR_KBSR).2.mem a = s.mem a) ∧
      (mem_read s MR_KBSR).2.reg = s.reg ∧
      (mem_read s MR_KBSR).2.out = s.out)
  ∧ (∀ s : Machine, s.inp = [] →
      (mem_read s MR_KBSR).2.mem MR_KBSR = 0 ∧
      (mem_read s MR_KBSR).1 = 0 ∧
      (∀ a, a ≠ MR_KBSR → (mem_read s MR_KBSR).2.mem a = s.mem a) ∧
      (mem_read s MR_KBSR).2.reg = s.reg ∧
      (mem_read s MR_KBSR).2.inp = s.inp ∧
      (mem_read s MR_KBSR).2.out = s.out)
  ∧ (∀ (s : Machine) (addr value : Nat),
      (mem_write s addr value).mem addr = value ∧
      (∀ a, a ≠ addr → (mem_write s addr value).mem a = s.mem a) ∧
      (mem_write s addr value).reg = s.reg ∧
      (mem_write s addr value).inp = s.inp ∧
      (mem_write s addr value).out = s.out) := by
  refine ⟨?_, ?_, ?_, ?_, ?_⟩
  · intro s addr
    by_cases h : addr = MR_KBSR
    · subst h
      cases hi : s.inp <;> simp [mem_read, hi]
    · simp [mem_read, h]
  · intro s addr h
    exact mem_read_ne s h
  · intro s b rest hi
    refine ⟨?_, ?_, ?_, ?_, ?_, ?_, ?_⟩ <;>
      simp [mem_read, hi, setMem, upd, MR_KBSR, MR_KBDR]
    intro a h1 h2
    simp [h1, h2]
  · intro s hi
    refine ⟨?_, ?_, ?_, ?_, ?_, ?_⟩ <;>
      simp [mem_read, hi, setMem, upd, MR_KBSR]
    intro a h1
    simp [h1]
  · intro s addr value
    refine ⟨?_, ?_, rfl, rfl, rfl⟩
    · exact upd_self _ _ _
    · intro a h
      exact upd_ne _ _ h

/-- Witness for C3 at concrete inputs. -/
theorem c3_memory_contract_witness :
    mem_read (initMachine (fun _ => 0) []) 5 =
      ((initMachine (fun _ => 0) []).mem 5, initMachine (fun _ => 0) []) ∧
    (mem_write (initMachine (fun _ => 0) []) 4 7).mem 4 = 7 ∧
    (mem_read (initMachine (fun _ => 0) [65]) MR_KBSR).2.mem MR_KBDR = 65 :=
  ⟨c3_memory_contract.2.1 _ 5 (by decide),
   (c3_memory_contract.2.2.2.2 _ 4 7).1,
   (c3_memory_contract.2.2.1 _ 65 [] rfl).2.1⟩

/-- **C6.** ADD arithmetic wraps modulo 65,536 in both forms: adding an
immediate 1 or a register holding 1 to a register holding `0xFFFF` yields
`0x0000` with flag Zero; and `ADD R1,R0,#-1` (word `0x123F`, sign-extended
5-bit immediate) with `R0 = 0` yields `R1 = 0xFFFF` with flag Negative. -/
theorem c6_add_wraps :
    (∀ (s : Machine) (instr : Nat),
      fetchVal s = instr → instr >>> 12 = 1 → (instr >>> 5) &&& 0x1 = 1 →
      instr &&& 0x1f = 1 → s.reg ((instr >>> 6) &&& 0x7) = 0xffff →
      (step s).isOk = true ∧
      (step s).state.reg ((instr >>> 9) &&& 0x7) = 0 ∧
      (step s).state.reg R_COND = FL_ZRO)
  ∧ (∀ (s : Machine) (instr : Nat),
      fetchVal s = instr → instr >>> 12 = 1 → (instr >>> 5) &&& 0x1 = 0 →
      s.reg ((instr >>> 6) &&& 0x7) = 0xffff → s.reg (instr &&& 0x7) = 1 →
      (step s).isOk = true ∧
      (step s).state.reg ((instr >>> 9) &&& 0x7) = 0 ∧
      (step s).state.reg R_COND = FL_ZRO)
  ∧ (∀ s : Machine,
      fetchVal s = 0x123f → s.reg R_R0 = 0 →
      (step s).isOk = true ∧
      (step s).state.reg 1 = 0xffff ∧
      (step s).state.reg R_COND = FL_NEG) := by
  refine ⟨?_, ?_, ?_⟩
  · intro s instr hf hop himm hlo hsrc
    have hpc : s.reg R_PC ≠ MR_KBSR :=
      pc_ne_kbsr s (by rw [hf, hop]; decide) (by rw [hf, hop]; decide)
    have hsrc' : (postFetch s).reg ((instr >>> 6) &&& 0x7) = 0xffff := by
      rw [postFetch_reg_ne s (and7_ne_pc _), hsrc]
    have hstep : step s =
        .ok (update_flags
          (setReg (postFetch s) ((instr >>> 9) &&& 0x7) 0)
          ((instr >>> 9) &&& 0x7)) := by
      show execInstr (fetchVal s) (postFetch s) = _
      rw [hf]
      simp [execInstr, hop, himm, hlo, hsrc', sign_extend]
    rw [hstep]
    refine ⟨rfl, ?_, ?_⟩
    · rw [Outcome.state, update_flags_reg _ _ (and7_ne_cond _),
        setReg_reg_self]
    · rw [Outcome.state, update_flags_cond, setReg_reg_self]
      decide
  · intro s instr hf hop himm hsrc1 hsrc2
    have hpc : s.reg R_PC ≠ MR_KBSR :=
      pc_ne_kbsr s (by rw [hf, hop]; decide) (by rw [hf, hop]; decide)
    have hsrc1' : (postFetch s).reg ((instr >>> 6) &&& 0x7) = 0xffff := by
      rw [postFetch_reg_ne s (and7_ne_pc _), hsrc1]
    have hsrc2' : (postFetch s).reg (instr &&& 0x7) = 1 := by
      rw [postFetch_reg_ne s (and7_ne_pc _), hsrc2]
    have hstep : step s =
        .ok (update_flags
          (setReg (postFetch s) ((instr >>> 9) &&& 0x7) 0)
          ((instr >>> 9) &&& 0x7)) := by
      show execInstr (fetchVal s) (postFetch s) = _
      rw [hf]
      simp [execInstr, hop, himm, hsrc1', hsrc2']
    rw [hstep]
    refine ⟨rfl, ?_, ?_⟩
    · rw [Outcome.state, update_flags_reg _ _ (and7_ne_cond _),
        setReg_reg_self]
    · rw [Outcome.state, update_flags_cond, setReg_reg_self]
      decide
  · intro s hf hr0
    have hpc : s.reg R_PC ≠ MR_KBSR :=
      pc_ne_kbsr s (by rw [hf]; decide) (by rw [hf]; decide)
    have hr0' : (postFetch s).reg 0 = 0 := by
      rw [postFetch_reg_ne s (by unfold R_PC; omega)]
      exact hr0
    have hstep : step s =
        .ok (update_flags (setReg (postFetch s) 1 0xffff) 1) := by
      show execInstr (fetchVal s) (postFetch s) = _
      rw [hf]
      have h1 : (0x123f : Nat) >>> 12 = 1 := by decide
      have h2 : ((0x123f : Nat) >>> 5) &&& 0x1 = 1 := by decide
      have h2b : ((145 : Nat)) &&& 0x1 = 1 := by decide
      have h3 : ((0x123f : Nat) >>> 9) &&& 0x7 = 1 := by decide
      have h3b : ((9 : Nat)) &&& 0x7 = 1 := by decide
      have h4 : ((0x123f : Nat) >>> 6) &&& 0x7 = 0 := by decide
      have h4b : ((72 : Nat)) &&& 0x7 = 0 := by decide
      have h5 : sign_extend ((0x123f : Nat) &&& 0x1f) 5 = 0xffff := by decide
      have h5b : sign_extend ((4671 : Nat) &&& 31) 5 = 0xffff := by decide
      simp [execInstr, h1, h2, h2b, h3, h3b, h4, h4b, h5, h5b, hr0']
    rw [hstep]
    refine ⟨rfl, ?_, ?_⟩
    · rw [Outcome.state, update_flags_reg _ _ (by unfold R_COND; omega),
        setReg_reg_self]
    · rw [Outcome.state, update_flags_cond, setReg_reg_self]
      decide

/-- Witness for C6: the scenario-C machine, `ADD R1,R0,#-1` at `0x3000` with
`R0 = 0`, and the immediate form at `0x3000` with `R0 = 0xFFFF`. -/
theorem c6_add_wraps_witness :
    ((step (initMachine (upd (fun _ => 0) 0x3000 0x123f) [])).isOk = true ∧
     (step (initMachine (upd (fun _ => 0) 0x3000 0x123f) [])).state.reg 1 = 0xffff ∧
     (step (initMachine (upd (fun _ => 0) 0x3000 0x123f) [])).state.reg R_COND = FL_NEG) ∧
    ((step { mem := upd (fun _ => 0) 0x3000 0x1021
             reg := upd (upd (fun _ => 0) R_R0 0xffff) R_PC 0x3000
             inp := []
             out := [] }).isOk = true ∧
     (step { mem := upd (fun _ => 0) 0x3000 0x1021
             reg := upd (upd (fun _ => 0) R_R0 0xffff) R_PC 0x3000
             inp := []
             out := [] }).state.reg ((0x1021 >>> 9) &&& 0x7) = 0 ∧
     (step { mem := upd (fun _ => 0) 0x3000 0x1021
             reg := upd (upd (fun _ => 0) R_R0 0xffff) R_PC 0x3000
             inp := []
             out := [] }).state.reg R_COND = FL_ZRO) :=
  ⟨c6_add_wraps.2.2 _ (by decide) (by decide),
   c6_add_wraps.1 _ 0x1021 (by decide) (by decide) (by decide) (by decide)
     (by decide)⟩

theorem setReg_inp (s : Machine) (r v : Nat) : (setReg s r v).inp = s.inp := rfl

theorem emit_inp (s : Machine) (bs : List Nat) : (emit s bs).inp = s.inp := rfl

theorem postFetch_inp (s : Machine) (h : s.reg R_PC ≠ MR_KBSR) :
    (postFetch s).inp = s.inp := by
  unfold postFetch
  rw [mem_read_ne s h]
  rfl

theorem postFetch_mem (s : Machine) (h : s.reg R_PC ≠ MR_KBSR) :
    (postFetch s).mem = s.mem := by
  unfold postFetch
  rw [mem_read_ne s h]
  rfl

theorem r0_ne_cond : R_R0 ≠ R_COND := by decide

theorem r0_ne_pc : R_R0 ≠ R_PC := by decide

theorem r7_ne_pc : R_R7 ≠ R_PC := by decide

theorem seven_ne_pc : (7 : Nat) ≠ R_PC := by decide

/-- JSR (any form) stores the already-incremented PC into R7. -/
theorem step_jsr_r7 (s : Machine) (hop : fetchVal s >>> 12 = 4) :
    (step s).isOk = true ∧
    (step s).state.reg R_R7 = (s.reg R_PC + 1) % 65536 := by
  by_cases hflag : fetchVal s >>> 11 % 2 = 1 <;>
    simp [step, execInstr, hop, hflag, Outcome.isOk, Outcome.state,
      setReg_reg_ne _ _ r7_ne_pc, setReg_reg_self, postFetch_pc]

/-- JMP with base register R7 loads the PC from R7. -/
theorem step_jmp_r7 (s : Machine) (hop : fetchVal s >>> 12 = 12)
    (hbase : (fetchVal s >>> 6) &&& 0x7 = 7) :
    (step s).isOk = true ∧ (step s).state.reg R_PC = s.reg R_R7 := by
  have h7 : (postFetch s).reg 7 = s.reg 7 := postFetch_reg_ne s seven_ne_pc
  simp [step, execInstr, hop, hbase, Outcome.isOk, Outcome.state,
    setReg_reg_self, h7, R_R7]

/-- **C5.** Every cycle fetches at PC and increments PC before executing, so
JSR stores the incremented PC into R7; and a later JMP R7 executed while R7
still holds that value transfers control to the instruction immediately
after the original JSR. -/
theorem c5_jsr_return :
    (∀ s : Machine, fetchVal s >>> 12 = 4 →
      (step s).isOk = true ∧
      (step s).state.reg R_R7 = (s.reg R_PC + 1) % 65536)
  ∧ (∀ s : Machine, fetchVal s >>> 12 = 12 → (fetchVal s >>> 6) &&& 0x7 = 7 →
      (step s).isOk = true ∧ (step s).state.reg R_PC = s.reg R_R7)
  ∧ (∀ s t : Machine, fetchVal s >>> 12 = 4 →
      t.reg R_R7 = (step s).state.reg R_R7 →
      fetchVal t >>> 12 = 12 → (fetchVal t >>> 6) &&& 0x7 = 7 →
      (step t).state.reg R_PC = (s.reg R_PC + 1) % 65536) := by
  refine ⟨step_jsr_r7, step_jmp_r7, ?_⟩
  intro s t hjsr hr7 hjmp hbase
  rw [(step_jmp_r7 t hjmp hbase).2, hr7, (step_jsr_r7 s hjsr).2]

/-- Witness for C5: `JSR #2` at `0x3000` saves `0x3001` in R7, and a
`JMP R7` at `0x3003` with R7 preserved returns the PC to `0x3001`. -/
theorem c5_jsr_return_witness :
    (step { mem := upd (fun _ => 0) 0x3003 0xc1c0
            reg := upd (upd (fun _ => 0) 7 0x3001) 8 0x3003
            inp := []
            out := [] }).state.reg R_PC =
      ((initMachine (upd (fun _ => 0) 0x3000 0x4802) []).reg R_PC + 1) % 65536 :=
  c5_jsr_return.2.2 (initMachine (upd (fun _ => 0) 0x3000 0x4802) [])
    { mem := upd (fun _ => 0) 0x3003 0xc1c0
      reg := upd (upd (fun _ => 0) 7 0x3001) 8 0x3003
      inp := []
      out := [] }
    (by decide) (by decide) (by decide) (by decide)

/-- **C7.** Fetching an instruction whose opcode is 8 (`OP_RTI`) or 13
(`OP_RES`) aborts the run during that cycle: the step is a fault, the
output stream is exactly what it was before the cycle, and the loop ends
in that fault no matter how much fuel remains. -/
theorem c7_reserved_fault :
    ∀ (s : Machine) (n : Nat),
      fetchVal s >>> 12 = 8 ∨ fetchVal s >>> 12 = 13 →
      step s = .fault (postFetch s) ∧
      (postFetch s).out = s.out ∧
      run (n + 1) s = .faulted (postFetch s) := by
  intro s n hop
  have hstep : step s = .fault (postFetch s) := by
    rcases hop with h | h <;> simp [step, execInstr, h]
  exact ⟨hstep, postFetch_out s, by simp [run, hstep]⟩

/-- Witness for C7: a reserved word `0xD000` at the entry point faults. -/
theorem c7_reserved_fault_witness :
    run 5 (initMachine (upd (fun _ => 0) 0x3000 0xd000) []) =
      .faulted (postFetch (initMachine (upd (fun _ => 0) 0x3000 0xd000) [])) :=
  (c7_reserved_fault (initMachine (upd (fun _ => 0) 0x3000 0xd000) []) 4
    (Or.inr (by decide))).2.2

/-- **C9.** A TRAP whose 8-bit vector is not one of the six defined vectors
neither faults nor halts: the cycle only stores the incremented PC into R7
(and advances the PC); memory, the input and output streams, the condition
flag and all other registers are unchanged, and the loop continues. -/
theorem c9_undefined_trap_noop :
    ∀ s : Machine, fetchVal s >>> 12 = 15 →
      fetchVal s &&& 0xff ≠ 0x20 → fetchVal s &&& 0xff ≠ 0x21 →
      fetchVal s &&& 0xff ≠ 0x22 → fetchVal s &&& 0xff ≠ 0x23 →
      fetchVal s &&& 0xff ≠ 0x24 → fetchVal s &&& 0xff ≠ 0x25 →
      (step s).isOk = true ∧
      (step s).state.mem = s.mem ∧
      (step s).state.inp = s.inp ∧
      (step s).state.out = s.out ∧
      (step s).state.reg R_R7 = (s.reg R_PC + 1) % 65536 ∧
      (step s).state.reg R_PC = (s.reg R_PC + 1) % 65536 ∧
      (∀ r, r ≠ R_R7 → r ≠ R_PC → (step s).state.reg r = s.reg r) := by
  intro s hop h20 h21 h22 h23 h24 h25
  have hpc : s.reg R_PC ≠ MR_KBSR :=
    pc_ne_kbsr s (by rw [hop]; decide) (by rw [hop]; decide)
  obtain ⟨-, hpf⟩ := fetch_notKbsr s hpc
  have hstep : step s =
      .ok (setReg (setReg s R_PC ((s.reg R_PC + 1) % 65536)) R_R7
            ((s.reg R_PC + 1) % 65536)) := by
    simp [step, execInstr, hop, h20, h21, h22, h23, h24, h25, hpf,
      setReg_reg_self]
  rw [hstep]
  refine ⟨rfl, rfl, rfl, rfl, setReg_reg_self _ _ _, ?_, ?_⟩
  · rw [Outcome.state, setReg_reg_ne _ _ r7_ne_pc.symm, setReg_reg_self]
  · intro r hr7 hrpc
    rw [Outcome.state, setReg_reg_ne _ _ hr7, setReg_reg_ne _ _ hrpc]

/-- Witness for C9: `TRAP 0x26` at the entry point is a silent no-op. -/
theorem c9_undefined_trap_noop_witness :
    (step (initMachine (upd (fun _ => 0) 0x3000 0xf026) [])).isOk = true ∧
    (step (initMachine (upd (fun _ => 0) 0x3000 0xf026) [])).state.reg R_R7 =
      0x3001 ∧
    (step (initMachine (upd (fun _ => 0) 0x3000 0xf026) [])).state.reg 3 =
      (initMachine (upd (fun _ => 0) 0x3000 0xf026) []).reg 3 := by
  have h := c9_undefined_trap_noop (initMachine (upd (fun _ => 0) 0x3000 0xf026) [])
    (by decide) (by decide) (by decide) (by decide) (by decide) (by decide)
    (by decide)
  exact ⟨h.1, by rw [h.2.2.2.2.1]; decide, h.2.2.2.2.2.2 3 (by decide) (by decide)⟩

/-- **C4.** After every instruction that writes a destination register
(ADD, AND, NOT = 9, LD = 2, LDI = 10, LDR = 6, LEA = 14) and after the
flag-updating traps (GETC, IN — when input is available so the trap
completes), the condition-flag register holds exactly
`flagOf` of the value just written — `FL_ZRO` if it is 0, `FL_NEG` if its
bit 15 is set, `FL_POS` otherwise — which is always exactly one of the
three flag values. -/
theorem c4_flag_update :
    ∀ s : Machine,
      (fetchVal s >>> 12 = 1 ∨ fetchVal s >>> 12 = 2 ∨ fetchVal s >>> 12 = 5 ∨
       fetchVal s >>> 12 = 6 ∨ fetchVal s >>> 12 = 9 ∨ fetchVal s >>> 12 = 10 ∨
       fetchVal s >>> 12 = 14 ∨
       (fetchVal s >>> 12 = 15 ∧
        (fetchVal s &&& 0xff = 0x20 ∨ fetchVal s &&& 0xff = 0x23) ∧
        s.inp ≠ [])) →
      (step s).isOk = true ∧
      (step s).state.reg R_COND =
        flagOf ((step s).state.reg (destReg (fetchVal s))) ∧
      ((step s).state.reg R_COND = FL_POS ∨
       (step s).state.reg R_COND = FL_ZRO ∨
       (step s).state.reg R_COND = FL_NEG) := by
  intro s h
  have tail : ∀ (u : Machine) (dr : Nat), dr ≠ R_COND →
      step s = .ok (update_flags u dr) → destReg (fetchVal s) = dr →
      (step s).isOk = true ∧
      (step s).state.reg R_COND =
        flagOf ((step s).state.reg (destReg (fetchVal s))) ∧
      ((step s).state.reg R_COND = FL_POS ∨
       (step s).state.reg R_COND = FL_ZRO ∨
       (step s).state.reg R_COND = FL_NEG) := by
    intro u dr hdr hstep hdest
    rw [hstep, hdest]
    refine ⟨rfl, ?_, ?_⟩
    · show (update_flags u dr).reg R_COND = flagOf ((update_flags u dr).reg dr)
      rw [update_flags_cond, update_flags_reg _ _ hdr]
    · show (update_flags u dr).reg R_COND = FL_POS ∨
        (update_flags u dr).reg R_COND = FL_ZRO ∨
        (update_flags u dr).reg R_COND = FL_NEG
      rw [update_flags_cond]
      exact flagOf_cases _
  rcases h with hop | hop | hop | hop | hop | hop | hop | ⟨hop, hvec, hinp⟩
  · by_cases himm : fetchVal s >>> 5 % 2 = 1 <;>
      exact tail _ _ (and7_ne_cond _) (by simp [step, execInstr, hop, himm]; rfl)
        (by simp [destReg, hop])
  · exact tail _ _ (and7_ne_cond _) (by simp [step, execInstr, hop]; rfl)
      (by simp [destReg, hop])
  · by_cases himm : fetchVal s >>> 5 % 2 = 1 <;>
      exact tail _ _ (and7_ne_cond _) (by simp [step, execInstr, hop, himm]; rfl)
        (by simp [destReg, hop])
  · exact tail _ _ (and7_ne_cond _) (by simp [step, execInstr, hop]; rfl)
      (by simp [destReg, hop])
  · exact tail _ _ (and7_ne_cond _) (by simp [step, execInstr, hop]; rfl)
      (by simp [destReg, hop])
  · exact tail _ _ (and7_ne_cond _) (by simp [step, execInstr, hop]; rfl)
      (by simp [destReg, hop])
  · exact tail _ _ (and7_ne_cond _) (by simp [step, execInstr, hop]; rfl)
      (by simp [destReg, hop])
  · have hpc : s.reg R_PC ≠ MR_KBSR :=
      pc_ne_kbsr s (by rw [hop]; decide) (by rw [hop]; decide)
    have hpinp : (postFetch s).inp = s.inp := postFetch_inp s hpc
    cases hi : s.inp with
    | nil => exact absurd hi hinp
    | cons b rest =>
        rcases hvec with hv | hv <;>
          exact tail _ _ r0_ne_cond
            (by simp [step, execInstr, hop, hv, setReg_inp, emit_inp, hpinp, hi]; rfl)
            (by simp [destReg, hop])

/-- Witness for C4: scenario B, `AND R0,R0,#0` (word `0x5020`) at the entry
point sets the flag to `FL_ZRO` via `flagOf` of the written register. -/
theorem c4_flag_update_witness :
    (step (initMachine (upd (fun _ => 0) 0x3000 0x5020) [])).isOk = true ∧
    (step (initMachine (upd (fun _ => 0) 0x3000 0x5020) [])).state.reg R_COND =
      flagOf ((step (initMachine (upd (fun _ => 0) 0x3000 0x5020) [])).state.reg
        (destReg (fetchVal (initMachine (upd (fun _ => 0) 0x3000 0x5020) [])))) ∧
    ((step (initMachine (upd (fun _ => 0) 0x3000 0x5020) [])).state.reg R_COND = FL_POS ∨
     (step (initMachine (upd (fun _ => 0) 0x3000 0x5020) [])).state.reg R_COND = FL_ZRO ∨
     (step (initMachine (upd (fun _ => 0) 0x3000 0x5020) [])).state.reg R_COND = FL_NEG) :=
  c4_flag_update (initMachine (upd (fun _ => 0) 0x3000 0x5020) [])
    (Or.inr (Or.inr (Or.inl (by decide))))

/-- **C8.** The interpreter is deterministic: every run is a function of the
loaded memory image and the pending input stream alone, so two runs started
from the same image and fed the same input stream agree on everything —
output sequence, final memory and final register file — at every fuel
bound. -/
theorem c8_deterministic :
    ∀ (n : Nat) (m1 m2 : Nat → Nat) (inp1 inp2 : List Nat),
      m1 = m2 → inp1 = inp2 →
      run n (initMachine m1 inp1) = run n (initMachine m2 inp2) := by
  intro n m1 m2 inp1 inp2 hm hi
  rw [hm, hi]

/-- Witness for C8 at a concrete image and input stream. -/
theorem c8_deterministic_witness :
    run 3 (initMachine (upd (fun _ => 0) 0x3000 0x5020) [65]) =
      run 3 (initMachine (upd (fun _ => 0) 0x3000 0x5020) [65]) :=
  c8_deterministic 3 _ _ _ _ rfl rfl

theorem setReg_mem (s : Machine) (r v : Nat) : (setReg s r v).mem = s.mem := rfl

theorem setReg_out (s : Machine) (r v : Nat) : (setReg s r v).out = s.out := rfl

theorem r0_ne_r7 : R_R0 ≠ R_R7 := by decide

theorem emit_out (s : Machine) (bs : List Nat) :
    (emit s bs).out = s.out ++ bs := rfl

/-- If the first zero cell at or above `i` sits `d` cells away and the fuel
covers it, the PUTS/PUTSP scan succeeds and collects exactly the cells
before that zero. -/
theorem scanZero_eq (mem : Nat → Nat) :
    ∀ (fuel i d : Nat), d < fuel →
      (∀ k, k < d → mem (i + k) ≠ 0) → mem (i + d) = 0 →
      scanZero mem i fuel = some ((List.range d).map fun k => mem (i + k)) := by
  intro fuel
  induction fuel with
  | zero => intro i d hd; omega
  | succ f ih =>
      intro i d hd hmin hz
      cases d with
      | zero =>
          have h0 : mem i = 0 := by simpa using hz
          simp [scanZero, h0]
      | succ d' =>
          have hne : mem i ≠ 0 := by simpa using hmin 0 (Nat.succ_pos d')
          have ih' := ih (i + 1) d' (by omega)
            (fun k hk => by
              have := hmin (k + 1) (by omega)
              simpa [Nat.add_assoc, Nat.add_comm 1 k] using this)
            (by simpa [Nat.add_assoc, Nat.add_comm 1 d'] using hz)
          have hcons :
              mem i :: ((List.range d').map fun k => mem (i + 1 + k)) =
                (List.range (d' + 1)).map fun k => mem (i + k) := by
            rw [List.range_succ_eq_map, List.map_cons, List.map_map]
            refine congrArg₂ _ (by simp) ?_
            refine List.map_congr_left ?_
            intro k _
            simp [Function.comp]
            congr 1
            omega
          simp [scanZero, hne, ih', hcons]

/-- The PUTS trap with the first zero cell `d` cells above R0, inside the
array: the scan succeeds and emits the low bytes of the `d` cells. -/
theorem trap_puts_scan :
    ∀ (s : Machine) (d : Nat),
      fetchVal s >>> 12 = 15 → fetchVal s &&& 0xff = 0x22 →
      s.reg R_R0 + d < 65536 →
      (∀ k, k < d → s.mem (s.reg R_R0 + k) ≠ 0) →
      s.mem (s.reg R_R0 + d) = 0 →
      scanZero s.mem (s.reg R_R0) (65536 - s.reg R_R0) =
        some ((List.range d).map fun k => s.mem (s.reg R_R0 + k)) ∧
      (step s).isOk = true ∧
      (step s).state.out = s.out ++
        (List.range d).map (fun k => s.mem (s.reg R_R0 + k) % 256) := by
  intro s d hop hvec hlt hmin hz
  have hpc : s.reg R_PC ≠ MR_KBSR :=
    pc_ne_kbsr s (by rw [hop]; decide) (by rw [hop]; decide)
  have hscan := scanZero_eq s.mem (65536 - s.reg R_R0) (s.reg R_R0) d
    (by omega) hmin hz
  have h1 : (setReg (postFetch s) R_R7 ((postFetch s).reg R_PC)).mem = s.mem := by
    rw [setReg_mem, postFetch_mem s hpc]
  have h2 : (setReg (postFetch s) R_R7 ((postFetch s).reg R_PC)).reg R_R0 =
      s.reg R_R0 := by
    rw [setReg_reg_ne _ _ r0_ne_r7, postFetch_reg_ne s r0_ne_pc]
  have h3 : (setReg (postFetch s) R_R7 ((postFetch s).reg R_PC)).out = s.out := by
    rw [setReg_out, postFetch_out]
  have hstep : step s =
      .ok (emit (setReg (postFetch s) R_R7 ((postFetch s).reg R_PC))
        ((List.range d).map (fun k => s.mem (s.reg R_R0 + k) % 256))) := by
    simp [step, execInstr, hop, hvec, h1, h2, hscan, List.map_map]
    rfl
  refine ⟨hscan, ?_, ?_⟩ <;> rw [hstep]
  · rfl
  · show (emit _ _).out = _
    rw [emit_out, h3]

/-- The PUTSP trap with the first zero cell `d` cells above R0, inside the
array: the scan succeeds and emits the byte pairs of the `d` cells. -/
theorem trap_putsp_scan :
    ∀ (s : Machine) (d : Nat),
      fetchVal s >>> 12 = 15 → fetchVal s &&& 0xff = 0x24 →
      s.reg R_R0 + d < 65536 →
      (∀ k, k < d → s.mem (s.reg R_R0 + k) ≠ 0) →
      s.mem (s.reg R_R0 + d) = 0 →
      scanZero s.mem (s.reg R_R0) (65536 - s.reg R_R0) =
        some ((List.range d).map fun k => s.mem (s.reg R_R0 + k)) ∧
      (step s).isOk = true ∧
      (step s).state.out = s.out ++
        putspBytes ((List.range d).map fun k => s.mem (s.reg R_R0 + k)) := by
  intro s d hop hvec hlt hmin hz
  have hpc : s.reg R_PC ≠ MR_KBSR :=
    pc_ne_kbsr s (by rw [hop]; decide) (by rw [hop]; decide)
  have hscan := scanZero_eq s.mem (65536 - s.reg R_R0) (s.reg R_R0) d
    (by omega) hmin hz
  have h1 : (setReg (postFetch s) R_R7 ((postFetch s).reg R_PC)).mem = s.mem := by
    rw [setReg_mem, postFetch_mem s hpc]
  have h2 : (setReg (postFetch s) R_R7 ((postFetch s).reg R_PC)).reg R_R0 =
      s.reg R_R0 := by
    rw [setReg_reg_ne _ _ r0_ne_r7, postFetch_reg_ne s r0_ne_pc]
  have h3 : (setReg (postFetch s) R_R7 ((postFetch s).reg R_PC)).out = s.out := by
    rw [setReg_out, postFetch_out]
  have hstep : step s =
      .ok (emit (setReg (postFetch s) R_R7 ((postFetch s).reg R_PC))
        (putspBytes ((List.range d).map fun k => s.mem (s.reg R_R0 + k)))) := by
    simp [step, execInstr, hop, hvec, h1, h2, hscan]
  refine ⟨hscan, ?_, ?_⟩ <;> rw [hstep]
  · rfl
  · show (emit _ _).out = _
    rw [emit_out, h3]

/-- **C10.** The PUTS and PUTSP traps scan cells at strictly increasing
addresses from R0 without 16-bit wraparound; in every state in which some
cell at an index ≥ R0 and < 65,536 holds zero, the scan stays inside the
65,536-cell array (the trap completes normally instead of running off the
end), terminates at the first zero cell — `d` cells above R0 — and emits
exactly the bytes of the `d` cells before it, in order. -/
theorem c10_string_scan :
    (∀ (s : Machine) (d : Nat),
      fetchVal s >>> 12 = 15 → fetchVal s &&& 0xff = 0x22 →
      s.reg R_R0 + d < 65536 →
      (∀ k, k < d → s.mem (s.reg R_R0 + k) ≠ 0) →
      s.mem (s.reg R_R0 + d) = 0 →
      scanZero s.mem (s.reg R_R0) (65536 - s.reg R_R0) =
        some ((List.range d).map fun k => s.mem (s.reg R_R0 + k)) ∧
      (step s).isOk = true ∧
      (step s).state.out = s.out ++
        (List.range d).map (fun k => s.mem (s.reg R_R0 + k) % 256))
  ∧ (∀ (s : Machine) (d : Nat),
      fetchVal s >>> 12 = 15 → fetchVal s &&& 0xff = 0x24 →
      s.reg R_R0 + d < 65536 →
      (∀ k, k < d → s.mem (s.reg R_R0 + k) ≠ 0) →
      s.mem (s.reg R_R0 + d) = 0 →
      scanZero s.mem (s.reg R_R0) (65536 - s.reg R_R0) =
        some ((List.range d).map fun k => s.mem (s.reg R_R0 + k)) ∧
      (step s).isOk = true ∧
      (step s).state.out = s.out ++
        putspBytes ((List.range d).map fun k => s.mem (s.reg R_R0 + k)))
  ∧ (∀ s : Machine,
      fetchVal s >>> 12 = 15 →
      (fetchVal s &&& 0xff = 0x22 ∨ fetchVal s &&& 0xff = 0x24) →
      (∃ j, s.reg R_R0 ≤ j ∧ j < 65536 ∧ s.mem j = 0) →
      (step s).isOk = true) := by
  refine ⟨trap_puts_scan, trap_putsp_scan, ?_⟩
  intro s hop hvec hex
  obtain ⟨j, hj1, hj2, hj3⟩ := hex
  have hfind : ∃ k, s.mem (s.reg R_R0 + k) = 0 :=
    ⟨j - s.reg R_R0, by rw [show s.reg R_R0 + (j - s.reg R_R0) = j by omega]; exact hj3⟩
  have hd : s.mem (s.reg R_R0 + Nat.find hfind) = 0 := Nat.find_spec hfind
  have hmin : ∀ k, k < Nat.find hfind → s.mem (s.reg R_R0 + k) ≠ 0 :=
    fun k hk => Nat.find_min hfind hk
  have hle : Nat.find hfind ≤ j - s.reg R_R0 :=
    Nat.find_min' hfind
      (by rw [show s.reg R_R0 + (j - s.reg R_R0) = j by omega]; exact hj3)
  have hlt : s.reg R_R0 + Nat.find hfind < 65536 := by omega
  rcases hvec with hv | hv
  · exact (trap_puts_scan s (Nat.find hfind) hop hv hlt hmin hd).2.1
  · exact (trap_putsp_scan s (Nat.find hfind) hop hv hlt hmin hd).2.1

/-- Witness for C10: `TRAP PUTS` at `0x3000` with `R0 = 0x4000` pointing at
the two cells `72, 105` followed by a zero cell prints the bytes `72, 105`. -/
theorem c10_string_scan_witness :
    (step { mem := upd (upd (upd (fun _ => 0) 0x3000 0xf022) 0x4000 72) 0x4001 105
            reg := upd (upd (fun _ => 0) 8 0x3000) 0 0x4000
            inp := []
            out := [] }).state.out =
      [] ++ (List.range 2).map (fun k =>
        ({ mem := upd (upd (upd (fun _ => 0) 0x3000 0xf022) 0x4000 72) 0x4001 105
           reg := upd (upd (fun _ => 0) 8 0x3000) 0 0x4000
           inp := []
           out := [] } : Machine).mem
          (({ mem := upd (upd (upd (fun _ => 0) 0x3000 0xf022) 0x4000 72) 0x4001 105
              reg := upd (upd (fun _ => 0) 8 0x3000) 0 0x4000
              inp := []
              out := [] } : Machine).reg R_R0 + k) % 256) :=
  (c10_string_scan.1
    { mem := upd (upd (upd (fun _ => 0) 0x3000 0xf022) 0x4000 72) 0x4001 105
      reg := upd (upd (fun _ => 0) 8 0x3000) 0 0x4000
      inp := []
      out := [] }
    2 (by decide) (by decide) (by decide)
    (fun k hk => by interval_cases k <;> decide) (by decide)).2.2

/-! ## Loader lemmas -/

theorem storeWords_outside (ws : List Nat) :
    ∀ (mem : Nat → Nat) (o a : Nat), a < o ∨ o + ws.length ≤ a →
      storeWords mem o ws a = mem a := by
  induction ws with
  | nil => intro mem o a _; rfl
  | cons w ws ih =>
      intro mem o a h
      show storeWords (upd mem o w) (o + 1) ws a = mem a
      have hlen : (w :: ws).length = ws.length + 1 := rfl
      rw [hlen] at h
      rw [ih _ _ _ (by omega)]
      exact upd_ne _ _ (by omega)

theorem storeWords_getD (ws : List Nat) :
    ∀ (mem : Nat → Nat) (o k : Nat), k < ws.length →
      storeWords mem o ws (o + k) = ws.getD k 0 := by
  induction ws with
  | nil => intro mem o k hk; simp at hk
  | cons w ws ih =>
      intro mem o k hk
      cases k with
      | zero =>
          show storeWords (upd mem o w) (o + 1) ws (o + 0) = w
          rw [storeWords_outside _ _ _ _ (Or.inl (by omega))]
          simp [upd]
      | succ k' =>
          have hk' : k' < ws.length := by
            have : (w :: ws).length = ws.length + 1 := rfl
            omega
          show storeWords (upd mem o w) (o + 1) ws (o + (k' + 1)) =
            (w :: ws).getD (k' + 1) 0
          rw [show o + (k' + 1) = (o + 1) + k' by omega, ih _ _ _ hk']
          rfl

/-- `swap16` turns the little-endian in-memory pair `b0 + 256*b1` of the two
file bytes `b0, b1` into the big-endian value `b0*256 + b1`. -/
theorem swap16_bytes (b0 b1 : Nat) (h0 : b0 < 256) (h1 : b1 < 256) :
    swap16 (b0 + 256 * b1) = b0 * 256 + b1 := by
  unfold swap16
  have hs : (b0 + 256 * b1) <<< 8 = 256 * (b0 + 256 * b1) := by
    rw [Nat.shiftLeft_eq]
    ring
  have hr : (b0 + 256 * b1) >>> 8 = b1 := by
    rw [Nat.shiftRight_eq_div_pow]
    show (b0 + 256 * b1) / 256 = b1
    omega
  rw [hs, hr]
  have hor : (256 * (b0 + 256 * b1)) ||| b1 =
      256 * (b0 + 256 * b1) + b1 := by
    have hb : b1 < 2 ^ 8 := by norm_num [h1]
    have h := (Nat.mul_add_lt_is_or hb (b0 + 256 * b1)).symm
    norm_num at h
    exact h
  rw [hor]
  omega

/-- **C2 counterexample.** For origin 0 the claim's formula
`min(stream length, 65536 - origin)` predicts that a one-word stream stores
its word `0x1234` at address 0, but the 16-bit `max_read = MEMORY_MAX - 0`
wraps to 0 and the loader stores nothing: cell 0 still reads 0. -/
theorem c2_loader_counterexample :
    read_image_file (fun _ => 0) [0, 0, 0x12, 0x34] 0 = 0 ∧
    min ((wordsBE [0x12, 0x34]).length) (65536 - 0) = 1 ∧
    (0x1234 : Nat) ≠ 0 :=
  ⟨rfl, by decide, by decide⟩

/-- **C2 (amended).** For every byte stream with an origin word, the loader
writes the stream's big-endian words at consecutive addresses from the
big-endian origin, storing exactly
`min(stream length, (65536 - origin) mod 2^16)` words — for origin 0 the
16-bit `MEMORY_MAX - origin` wraps to 0 and nothing is stored; for any
origin ≥ 1 this is `min(stream length, 65536 - origin)` as the original
claim says — with no wraparound, no error, and every other cell
untouched. -/
theorem c2_loader_amended :
    ∀ (mem : Nat → Nat) (b0 b1 : Nat) (rest : List Nat),
      b0 < 256 → b1 < 256 →
      ((wordsBE rest).take ((65536 - (b0 * 256 + b1)) % 65536)).length =
        min ((wordsBE rest).length) ((65536 - (b0 * 256 + b1)) % 65536) ∧
      (∀ k, k < min ((wordsBE rest).length) ((65536 - (b0 * 256 + b1)) % 65536) →
        read_image_file mem (b0 :: b1 :: rest) (b0 * 256 + b1 + k) =
          ((wordsBE rest).take ((65536 - (b0 * 256 + b1)) % 65536)).getD k 0) ∧
      (∀ a, (a < b0 * 256 + b1 ∨
          b0 * 256 + b1 +
            min ((wordsBE rest).length) ((65536 - (b0 * 256 + b1)) % 65536) ≤ a) →
        read_image_file mem (b0 :: b1 :: rest) a = mem a) := by
  intro mem b0 b1 rest h0 h1
  have horigin : swap16 (b0 + 256 * b1) = b0 * 256 + b1 := swap16_bytes b0 b1 h0 h1
  have hrw : read_image_file mem (b0 :: b1 :: rest) =
      storeWords mem (b0 * 256 + b1)
        ((wordsBE rest).take ((65536 - (b0 * 256 + b1)) % 65536)) := by
    show storeWords mem (swap16 (b0 + 256 * b1))
        ((wordsBE rest).take ((MEMORY_MAX - swap16 (b0 + 256 * b1)) % 65536)) = _
    rw [horigin]
    rfl
  have hlen : ((wordsBE rest).take ((65536 - (b0 * 256 + b1)) % 65536)).length =
      min ((wordsBE rest).length) ((65536 - (b0 * 256 + b1)) % 65536) := by
    rw [List.length_take, Nat.min_comm]
  refine ⟨hlen, ?_, ?_⟩
  · intro k hk
    rw [hrw]
    exact storeWords_getD _ _ _ _ (by omega)
  · intro a ha
    rw [hrw]
    exact storeWords_outside _ _ _ _ (by omega)

/-- Witness for C2 (amended): origin `0x3000`, one stream word `0x1234`. -/
theorem c2_loader_amended_witness :
    read_image_file (fun _ => 0) [0x30, 0, 0x12, 0x34] (0x30 * 256 + 0 + 0) =
      ((wordsBE [0x12, 0x34]).take ((65536 - (0x30 * 256 + 0)) % 65536)).getD 0 0 ∧
    read_image_file (fun _ => 0) [0x30, 0, 0x12, 0x34] 5 = (fun _ => (0 : Nat)) 5 :=
  ⟨(c2_loader_amended (fun _ => 0) 0x30 0 [0x12, 0x34] (by decide) (by decide)).2.1
      0 (by decide),
   (c2_loader_amended (fun _ => 0) 0x30 0 [0x12, 0x34] (by decide) (by decide)).2.2
      5 (Or.inl (by decide))⟩

/-- **C1 (code bug).** `main`'s loading loop starts at `j = 0`, so it also
passes `argv[0]` — the program's own path — to `read_image`.  With one
positional image `prog.obj`: if `argv[0]` cannot be opened the run aborts
with the load-failure error naming `./lc3` even though `prog.obj` is fine;
if `argv[0]` can be opened, its bytes are loaded into Memory (here the word
`0xABCD` appears at `0x4000`, which the claim says must stay untouched).
The zero-positional-argument usage case behaves as claimed. -/
theorem c1_argv0_also_loaded :
    mainLoad (fun p => if p = "prog.obj" then some [0x30, 0x00, 0x12, 0x34]
        else none) ["./lc3", "prog.obj"] = .loadFail "./lc3" ∧
    mainLoad (fun p => if p = "./lc3" then some [0x40, 0x00, 0xab, 0xcd]
        else if p = "prog.obj" then some [0x30, 0x00, 0x12, 0x34]
        else none) ["./lc3", "prog.obj"] =
      .loaded (read_image_file
        (read_image_file (fun _ => 0) [0x40, 0x00, 0xab, 0xcd])
        [0x30, 0x00, 0x12, 0x34]) ∧
    read_image_file (read_image_file (fun _ => 0) [0x40, 0x00, 0xab, 0xcd])
        [0x30, 0x00, 0x12, 0x34] 0x4000 = 0xabcd ∧
    mainLoad (fun p => if p = "prog.obj" then some [0x30, 0x00, 0x12, 0x34]
        else none) ["./lc3"] = .usage :=
  ⟨rfl, rfl, by decide, rfl⟩

end LC3
